import Mathlib

/-!
Verification development for the event-driven backtesting engine
(src/src/backtest.py).  The engine replays a price series bar by bar,
applies a trading rule, and tracks cash, units held and trade count under
fixed and proportional transaction costs.

Modelling conventions:
  - Python floats are modelled by rationals.
  - A Python exception (ZeroDivisionError or OverflowError when a cash
    budget is divided by a zero price, NameError when the loop variable is
    unbound because the bar loop never executed) is modelled by Option,
    with none standing for the aborted computation.
  - The mutable object state (self.amount, self.units, self.position,
    self.trades) is an explicit record threaded through the functions.
    A per-run fill log is added as instrumentation so that statements
    about fill sequences can be expressed; every place_buy_order and
    place_sell_order appends exactly one entry, mirroring its print.
-/

namespace Backtest

/-- One bar of the prepared data frame: a price and a log return.
After raw.dropna in get_data every remaining row has both defined. -/
structure Bar where
  price : ℚ
  ret : ℚ
deriving DecidableEq, Repr

/-- Price lookup, data.price.iloc of get_date_price.  Out-of-range access
is padded with 0; runs only index inside the series. -/
def priceAt (data : List Bar) (i : ℕ) : ℚ :=
  (data.getD i ⟨0, 0⟩).price

/-- Python int() applied to a rational: truncation toward zero. -/
def truncQ (x : ℚ) : ℤ :=
  if 0 ≤ x then ⌊x⌋ else ⌈x⌉

/-- Record of one executed fill (one place_buy_order or place_sell_order
call): bar index, the bar price, the resolved unit delta and direction. -/
structure Fill where
  bar : ℕ
  price : ℚ
  units : ℤ
  isBuy : Bool
deriving DecidableEq, Repr

/-- Mutable engine state: self.amount (cash), self.units (signed holding),
self.position, self.trades, plus the instrumentation fill log. -/
structure St where
  amount : ℚ
  units : ℤ
  position : ℤ
  trades : ℕ
  log : List Fill
deriving DecidableEq, Repr

/-- Number of fills recorded during the run. -/
def fillCount (s : St) : ℕ :=
  s.log.length

/-- Trades projection through Option. -/
def tradesOf (r : Option St) : Option ℕ :=
  r.map St.trades

/-- Units projection through Option. -/
def unitsOf (r : Option St) : Option ℤ :=
  r.map St.units

/-- Fill-count projection through Option. -/
def fillsOf (r : Option St) : Option ℕ :=
  r.map fillCount

/-- Size argument of place_buy_order and place_sell_order: either the
units keyword or the amount keyword (exactly one is passed at every call
site). -/
inductive Size where
  | byUnits (u : ℤ)
  | byAmount (a : ℚ)
deriving DecidableEq, Repr

/-- Resolution of the size argument into a unit delta, the
if units is None: units = int(amount / price) line.  Division of a cash
budget by a zero price raises in Python (modelled none); any other price
yields int(amount / price), truncation toward zero. -/
def resolveUnits (sz : Size) (p : ℚ) : Option ℤ :=
  match sz with
  | Size.byUnits u => some u
  | Size.byAmount a => if p = 0 then none else some (truncQ (a / p))

/-- place_buy_order: cash decreases by units * price * (1 + ptc) + ftc,
units increase by the delta, trades increments, one fill is logged. -/
def place_buy_order (ftc ptc : ℚ) (data : List Bar) (bar : ℕ) (sz : Size)
    (s : St) : Option St :=
  (resolveUnits sz (priceAt data bar)).map fun (u : ℤ) =>
    { amount := s.amount - ((u : ℚ) * priceAt data bar) * (1 + ptc) - ftc
      units := s.units + u
      position := s.position
      trades := s.trades + 1
      log := s.log ++ [⟨bar, priceAt data bar, u, true⟩] }

/-- place_sell_order: cash increases by units * price * (1 - ptc) - ftc,
units decrease by the delta, trades increments, one fill is logged. -/
def place_sell_order (ftc ptc : ℚ) (data : List Bar) (bar : ℕ) (sz : Size)
    (s : St) : Option St :=
  (resolveUnits sz (priceAt data bar)).map fun (u : ℤ) =>
    { amount := s.amount + ((u : ℚ) * priceAt data bar) * (1 - ptc) - ftc
      units := s.units - u
      position := s.position
      trades := s.trades + 1
      log := s.log ++ [⟨bar, priceAt data bar, u, false⟩] }

/-- close_out: cash absorbs the holding at the bar price with no cost
terms, units are zeroed, trades increments unconditionally.  No fill is
logged (the source prints an inventory line, not a buy or sell line). -/
def close_out (data : List Bar) (bar : ℕ) (s : St) : St :=
  { amount := s.amount + (s.units : ℚ) * priceAt data bar
    units := 0
    position := s.position
    trades := s.trades + 1
    log := s.log }

/-- Size argument of go_long and go_short: the units keyword, a numeric
amount keyword, or the string sentinel for all available cash. -/
inductive GoSize where
  | byUnits (u : ℤ)
  | byAmount (a : ℚ)
  | allIn
deriving DecidableEq, Repr

/-- go_long of BacktestLongShort: when short, first buy back the full
negative holding, then open via the size argument.  Python truthiness of
the keywords is preserved: a zero units or zero numeric amount skips the
opening order; the all sentinel resolves to self.amount after the closing
fill. -/
def go_long (ftc ptc : ℚ) (data : List Bar) (bar : ℕ) (sz : GoSize)
    (s : St) : Option St :=
  (if s.position = -1 then
    place_buy_order ftc ptc data bar (Size.byUnits (-s.units)) s
  else some s).bind fun s1 =>
    match sz with
    | GoSize.byUnits u =>
        if u ≠ 0 then place_buy_order ftc ptc data bar (Size.byUnits u) s1
        else some s1
    | GoSize.byAmount a =>
        if a ≠ 0 then place_buy_order ftc ptc data bar (Size.byAmount a) s1
        else some s1
    | GoSize.allIn =>
        place_buy_order ftc ptc data bar (Size.byAmount s1.amount) s1

/-- go_short of BacktestLongShort: when long, first sell the full holding,
then open the short side via the size argument, mirroring go_long. -/
def go_short (ftc ptc : ℚ) (data : List Bar) (bar : ℕ) (sz : GoSize)
    (s : St) : Option St :=
  (if s.position = 1 then
    place_sell_order ftc ptc data bar (Size.byUnits s.units) s
  else some s).bind fun s1 =>
    match sz with
    | GoSize.byUnits u =>
        if u ≠ 0 then place_sell_order ftc ptc data bar (Size.byUnits u) s1
        else some s1
    | GoSize.byAmount a =>
        if a ≠ 0 then place_sell_order ftc ptc data bar (Size.byAmount a) s1
        else some s1
    | GoSize.allIn =>
        place_sell_order ftc ptc data bar (Size.byAmount s1.amount) s1

/-- Rolling mean of window w at index i, pandas rolling(w).mean(): defined
exactly when w is positive and the window of w values ending at i fits in
the series; NaN otherwise, modelled none. -/
def rollMean (xs : List ℚ) (w i : ℕ) : Option ℚ :=
  if 1 ≤ w ∧ w ≤ i + 1 ∧ i < xs.length then
    some (((xs.drop (i + 1 - w)).take w).sum / (w : ℚ))
  else none

/-- Strict greater-than on possibly-NaN indicator values: any comparison
with NaN is False in pandas. -/
def optGT : Option ℚ → Option ℚ → Bool
  | some x, some y => decide (y < x)
  | _, _ => false

/-- Strict less-than on possibly-NaN indicator values. -/
def optLT : Option ℚ → Option ℚ → Bool
  | some x, some y => decide (x < y)
  | _, _ => false

/-- Greater-or-equal on possibly-NaN indicator values. -/
def optGE : Option ℚ → Option ℚ → Bool
  | some x, some y => decide (y ≤ x)
  | _, _ => false

/-- The bar indices visited by a strategy loop, range(w, len(data)). -/
def visitedBars (w n : ℕ) : List ℕ :=
  List.range' w (n - w)

/-- The per-run reset lines shared by every run_*_strategy method:
position = 0, trades = 0, amount = initial_amount.  The unit holding is
not reset by the source; the fill log is per-run instrumentation. -/
def reset (initial : ℚ) (s : St) : St :=
  { amount := initial
    units := s.units
    position := 0
    trades := 0
    log := [] }

/-- Sequential execution of a step over a list of bar indices; a step
that raises aborts the run. -/
def runBars (step : ℕ → St → Option St) : List ℕ → St → Option St
  | [], s => some s
  | b :: bs, s => (step b s).bind (runBars step bs)

/-- One loop iteration shared by the three long-only strategies: from the
neutral position a buy signal buys with the full cash balance and sets
position 1; from the long position a sell signal sells the full holding
and sets position 0. -/
def longOnlyStep (ftc ptc : ℚ) (data : List Bar)
    (buySig sellSig : ℕ → Bool) (bar : ℕ) (s : St) : Option St :=
  if s.position = 0 then
    if buySig bar then
      (place_buy_order ftc ptc data bar (Size.byAmount s.amount) s).map
        fun s1 => { s1 with position := 1 }
    else some s
  else if s.position = 1 then
    if sellSig bar then
      (place_sell_order ftc ptc data bar (Size.byUnits s.units) s).map
        fun s1 => { s1 with position := 0 }
    else some s
  else some s

/-- The bar loop of a long-only run, from the reset state over
range(w, len(data)). -/
def run_long_only_loop (ftc ptc initial : ℚ) (data : List Bar) (w : ℕ)
    (buySig sellSig : ℕ → Bool) (s0 : St) : Option St :=
  runBars (longOnlyStep ftc ptc data buySig sellSig)
    (visitedBars w data.length) (reset initial s0)

/-- A full long-only run: reset, bar loop, then close_out at the last
loop bar.  When range(w, len(data)) is empty the loop variable is never
bound and close_out(bar) raises NameError in the source: modelled none. -/
def run_long_only (ftc ptc initial : ℚ) (data : List Bar) (w : ℕ)
    (buySig sellSig : ℕ → Bool) (s0 : St) : Option St :=
  if w < data.length then
    (run_long_only_loop ftc ptc initial data w buySig sellSig s0).map
      (close_out data (data.length - 1))
  else none

/-- Buy signal of run_sma_strategy: SMA1 above SMA2 at the bar. -/
def smaBuySig (data : List Bar) (w1 w2 : ℕ) (b : ℕ) : Bool :=
  optGT (rollMean (data.map Bar.price) w1 b)
    (rollMean (data.map Bar.price) w2 b)

/-- Sell signal of run_sma_strategy: SMA1 below SMA2 at the bar. -/
def smaSellSig (data : List Bar) (w1 w2 : ℕ) (b : ℕ) : Bool :=
  optLT (rollMean (data.map Bar.price) w1 b)
    (rollMean (data.map Bar.price) w2 b)

/-- BacktestLongOnly.run_sma_strategy. -/
def run_sma_strategy (ftc ptc initial : ℚ) (data : List Bar)
    (w1 w2 : ℕ) (s0 : St) : Option St :=
  run_long_only ftc ptc initial data w2
    (smaBuySig data w1 w2) (smaSellSig data w1 w2) s0

/-- The bar loop of run_sma_strategy, before the terminal close_out. -/
def run_sma_loop (ftc ptc initial : ℚ) (data : List Bar)
    (w1 w2 : ℕ) (s0 : St) : Option St :=
  run_long_only_loop ftc ptc initial data w2
    (smaBuySig data w1 w2) (smaSellSig data w1 w2) s0

/-- Buy signal of run_momentum_strategy: rolling mean return above 0. -/
def momBuySig (data : List Bar) (m : ℕ) (b : ℕ) : Bool :=
  optGT (rollMean (data.map Bar.ret) m b) (some 0)

/-- Sell signal of run_momentum_strategy: rolling mean return below 0. -/
def momSellSig (data : List Bar) (m : ℕ) (b : ℕ) : Bool :=
  optLT (rollMean (data.map Bar.ret) m b) (some 0)

/-- BacktestLongOnly.run_momentum_strategy. -/
def run_momentum_strategy (ftc ptc initial : ℚ) (data : List Bar)
    (m : ℕ) (s0 : St) : Option St :=
  run_long_only ftc ptc initial data m
    (momBuySig data m) (momSellSig data m) s0

/-- Buy signal of run_mean_reversion_strategy: price below SMA minus the
threshold. -/
def mrBuySig (data : List Bar) (w : ℕ) (thr : ℚ) (b : ℕ) : Bool :=
  optLT (some (priceAt data b))
    ((rollMean (data.map Bar.price) w b).map fun x => x - thr)

/-- Sell signal of run_mean_reversion_strategy: price at or above SMA. -/
def mrSellSig (data : List Bar) (w : ℕ) (b : ℕ) : Bool :=
  optGE (some (priceAt data b)) (rollMean (data.map Bar.price) w b)

/-- BacktestLongOnly.run_mean_reversion_strategy. -/
def run_mean_reversion_strategy (ftc ptc initial : ℚ) (data : List Bar)
    (w : ℕ) (thr : ℚ) (s0 : St) : Option St :=
  run_long_only ftc ptc initial data w
    (mrBuySig data w thr) (mrSellSig data w) s0

/-- Fresh engine state as set by the constructor: units 0, position 0,
trades 0, with an initial cash balance. -/
def initSt : St :=
  { amount := 10, units := 0, position := 0, trades := 0, log := [] }

/-- One bar at price 2. -/
def dataP2 : List Bar :=
  [⟨2, 0⟩]

/-- One bar at price 0 (degenerate data). -/
def dataZeroP : List Bar :=
  [⟨0, 0⟩]

/-- One bar at price -2 (degenerate data). -/
def dataNegP : List Bar :=
  [⟨-2, 0⟩]

/-- Five bars with strictly decreasing prices: no SMA crossover fires. -/
def data5 : List Bar :=
  [⟨5, 0⟩, ⟨4, 0⟩, ⟨3, 0⟩, ⟨2, 0⟩, ⟨1, 0⟩]

/-- Five bars whose prices zigzag: buy, sell at a loss, buy again. -/
def dataZig : List Bar :=
  [⟨1, 0⟩, ⟨1, 0⟩, ⟨2, 0⟩, ⟨1, 0⟩, ⟨2, 0⟩]

/-- Three bars, shorter than a window of 5. -/
def data3 : List Bar :=
  [⟨1, 0⟩, ⟨2, 0⟩, ⟨3, 0⟩]

/-- A constant price series of length 5 as a plain list. -/
def pr5 : List ℚ :=
  [1, 1, 1, 1, 1]

/-- A short state: 4 units short with position -1. -/
def shortSt : St :=
  { amount := 10, units := -4, position := -1, trades := 0, log := [] }

/-- A long state: 4 units held with position 1. -/
def longSt : St :=
  { amount := 10, units := 4, position := 1, trades := 0, log := [] }

/-! Helper lemmas about single fills. -/

theorem place_buy_byUnits (ftc ptc : ℚ) (data : List Bar) (bar : ℕ)
    (u : ℤ) (s : St) :
    place_buy_order ftc ptc data bar (Size.byUnits u) s =
      some { amount := s.amount - ((u : ℚ) * priceAt data bar) * (1 + ptc) - ftc
             units := s.units + u
             position := s.position
             trades := s.trades + 1
             log := s.log ++ [⟨bar, priceAt data bar, u, true⟩] } := rfl

theorem place_sell_byUnits (ftc ptc : ℚ) (data : List Bar) (bar : ℕ)
    (u : ℤ) (s : St) :
    place_sell_order ftc ptc data bar (Size.byUnits u) s =
      some { amount := s.amount + ((u : ℚ) * priceAt data bar) * (1 - ptc) - ftc
             units := s.units - u
             position := s.position
             trades := s.trades + 1
             log := s.log ++ [⟨bar, priceAt data bar, u, false⟩] } := rfl

theorem place_buy_byAmount (ftc ptc : ℚ) (data : List Bar) (bar : ℕ)
    (a : ℚ) (s : St) (hp : priceAt data bar ≠ 0) :
    place_buy_order ftc ptc data bar (Size.byAmount a) s =
      some { amount := s.amount -
               ((truncQ (a / priceAt data bar) : ℚ) * priceAt data bar) * (1 + ptc) - ftc
             units := s.units + truncQ (a / priceAt data bar)
             position := s.position
             trades := s.trades + 1
             log := s.log ++ [⟨bar, priceAt data bar, truncQ (a / priceAt data bar), true⟩] } := by
  simp [place_buy_order, resolveUnits, hp]

theorem place_sell_byAmount (ftc ptc : ℚ) (data : List Bar) (bar : ℕ)
    (a : ℚ) (s : St) (hp : priceAt data bar ≠ 0) :
    place_sell_order ftc ptc data bar (Size.byAmount a) s =
      some { amount := s.amount +
               ((truncQ (a / priceAt data bar) : ℚ) * priceAt data bar) * (1 - ptc) - ftc
             units := s.units - truncQ (a / priceAt data bar)
             position := s.position
             trades := s.trades + 1
             log := s.log ++ [⟨bar, priceAt data bar, truncQ (a / priceAt data bar), false⟩] } := by
  simp [place_sell_order, resolveUnits, hp]

theorem place_buy_counts (ftc ptc : ℚ) (data : List Bar) (bar : ℕ)
    (sz : Size) (s t : St)
    (h : place_buy_order ftc ptc data bar sz s = some t) :
    t.trades = s.trades + 1 ∧ t.log.length = s.log.length + 1 ∧
      t.position = s.position := by
  cases hro : resolveUnits sz (priceAt data bar) with
  | none => rw [place_buy_order, hro] at h; cases h
  | some u => rw [place_buy_order, hro] at h; cases h; simp

theorem place_sell_counts (ftc ptc : ℚ) (data : List Bar) (bar : ℕ)
    (sz : Size) (s t : St)
    (h : place_sell_order ftc ptc data bar sz s = some t) :
    t.trades = s.trades + 1 ∧ t.log.length = s.log.length + 1 ∧
      t.position = s.position := by
  cases hro : resolveUnits sz (priceAt data bar) with
  | none => rw [place_sell_order, hro] at h; cases h
  | some u => rw [place_sell_order, hro] at h; cases h; simp

/-- Case analysis of one long-only loop iteration: it is a no-op, an
all-cash buy that sets position 1, or a full sell that sets position 0. -/
theorem longOnlyStep_cases (ftc ptc : ℚ) (data : List Bar)
    (buySig sellSig : ℕ → Bool) (bar : ℕ) (s s' : St)
    (h : longOnlyStep ftc ptc data buySig sellSig bar s = some s') :
    s' = s ∨
    (∃ t, place_buy_order ftc ptc data bar (Size.byAmount s.amount) s = some t ∧
      s' = { t with position := 1 }) ∨
    (∃ t, place_sell_order ftc ptc data bar (Size.byUnits s.units) s = some t ∧
      s' = { t with position := 0 }) := by
  unfold longOnlyStep at h
  by_cases h0 : s.position = 0
  · rw [if_pos h0] at h
    by_cases hb : buySig bar = true
    · rw [if_pos hb] at h
      cases hpb : place_buy_order ftc ptc data bar (Size.byAmount s.amount) s with
      | none => rw [hpb] at h; cases h
      | some t =>
        rw [hpb] at h
        cases h
        exact Or.inr (Or.inl ⟨t, rfl, rfl⟩)
    · rw [if_neg hb] at h
      cases h
      exact Or.inl rfl
  · rw [if_neg h0] at h
    by_cases h1 : s.position = 1
    · rw [if_pos h1] at h
      by_cases hs : sellSig bar = true
      · rw [if_pos hs] at h
        cases hps : place_sell_order ftc ptc data bar (Size.byUnits s.units) s with
        | none => rw [hps] at h; cases h
        | some t =>
          rw [hps] at h
          cases h
          exact Or.inr (Or.inr ⟨t, rfl, rfl⟩)
      · rw [if_neg hs] at h
        cases h
        exact Or.inl rfl
    · rw [if_neg h1] at h
      cases h
      exact Or.inl rfl

/-- Preservation of an invariant along the bar loop. -/
theorem runBars_invariant (step : ℕ → St → Option St) (P : St → Prop)
    (hstep : ∀ b s s', step b s = some s' → P s → P s') :
    ∀ (bars : List ℕ) (s s' : St),
      runBars step bars s = some s' → P s → P s' := by
  intro bars
  induction bars with
  | nil =>
    intro s s' h hs
    rw [runBars] at h
    cases h
    exact hs
  | cons b bs ih =>
    intro s s' h hs
    rw [runBars] at h
    cases hb : step b s with
    | none => rw [hb] at h; cases h
    | some t =>
      rw [hb] at h
      exact ih t s' h (hstep b s t hb hs)

theorem longOnlyStep_counts (ftc ptc : ℚ) (data : List Bar)
    (buySig sellSig : ℕ → Bool) (bar : ℕ) (s s' : St)
    (h : longOnlyStep ftc ptc data buySig sellSig bar s = some s')
    (hs : s.trades = s.log.length) : s'.trades = s'.log.length := by
  rcases longOnlyStep_cases ftc ptc data buySig sellSig bar s s' h with
    heq | ⟨t, ht, heq⟩ | ⟨t, ht, heq⟩
  · rw [heq]; exact hs
  · obtain ⟨h1, h2, _⟩ := place_buy_counts ftc ptc data bar _ s t ht
    rw [heq]
    show t.trades = t.log.length
    rw [h1, h2, hs]
  · obtain ⟨h1, h2, _⟩ := place_sell_counts ftc ptc data bar _ s t ht
    rw [heq]
    show t.trades = t.log.length
    rw [h1, h2, hs]

theorem longOnlyStep_pos (ftc ptc : ℚ) (data : List Bar)
    (buySig sellSig : ℕ → Bool) (bar : ℕ) (s s' : St)
    (h : longOnlyStep ftc ptc data buySig sellSig bar s = some s')
    (hs : s.position = 0 ∨ s.position = 1) :
    s'.position = 0 ∨ s'.position = 1 := by
  rcases longOnlyStep_cases ftc ptc data buySig sellSig bar s s' h with
    heq | ⟨t, _, heq⟩ | ⟨t, _, heq⟩
  · rw [heq]; exact hs
  · rw [heq]; exact Or.inr rfl
  · rw [heq]; exact Or.inl rfl

/-- The reset state depends only on the incoming unit holding. -/
theorem reset_congr (A : ℚ) (s t : St) (h : s.units = t.units) :
    reset A s = reset A t := by
  rw [reset, reset, h]

theorem run_long_only_congr (ftc ptc A : ℚ) (data : List Bar) (w : ℕ)
    (buySig sellSig : ℕ → Bool) (s t : St) (h : s.units = t.units) :
    run_long_only ftc ptc A data w buySig sellSig s =
      run_long_only ftc ptc A data w buySig sellSig t := by
  rw [run_long_only, run_long_only, run_long_only_loop, run_long_only_loop,
    reset_congr A s t h]

/-- Every completed run ends with a zero holding: close_out clears it. -/
theorem run_long_only_units_zero (ftc ptc A : ℚ) (data : List Bar) (w : ℕ)
    (buySig sellSig : ℕ → Bool) (s0 s' : St)
    (h : run_long_only ftc ptc A data w buySig sellSig s0 = some s') :
    s'.units = 0 := by
  rw [run_long_only] at h
  by_cases hw : w < data.length
  · rw [if_pos hw] at h
    cases hl : run_long_only_loop ftc ptc A data w buySig sellSig s0 with
    | none => rw [hl] at h; cases h
    | some sl =>
      rw [hl] at h
      cases h
      rfl
  · rw [if_neg hw] at h
    cases h

/-! Claim theorems. -/

/-- Claim C2: a buy of u units at price p updates cash to
cash - u * p * (1 + ptc) - ftc, a sell to cash + u * p * (1 - ptc) - ftc
(the proportional cost reduces sale proceeds), units move by the signed
delta (buy adds, sell subtracts), trades increments by one, and cash and
units update together atomically in the one resulting state of the same
fill. -/
theorem C2_fill_accounting (ftc ptc : ℚ) (data : List Bar) (bar : ℕ)
    (u : ℤ) (s : St) (hp : 0 < priceAt data bar) :
    place_buy_order ftc ptc data bar (Size.byUnits u) s =
      some { amount := s.amount - ((u : ℚ) * priceAt data bar) * (1 + ptc) - ftc
             units := s.units + u
             position := s.position
             trades := s.trades + 1
             log := s.log ++ [⟨bar, priceAt data bar, u, true⟩] } ∧
    place_sell_order ftc ptc data bar (Size.byUnits u) s =
      some { amount := s.amount + ((u : ℚ) * priceAt data bar) * (1 - ptc) - ftc
             units := s.units - u
             position := s.position
             trades := s.trades + 1
             log := s.log ++ [⟨bar, priceAt data bar, u, false⟩] } :=
  ⟨place_buy_byUnits ftc ptc data bar u s, place_sell_byUnits ftc ptc data bar u s⟩

/-- Witness for C2 at ftc 0, ptc 0, price 2, a buy and a sell of 3 units
from the fresh state. -/
theorem C2_fill_accounting_witness :
    place_buy_order 0 0 dataP2 0 (Size.byUnits 3) initSt =
      some { amount := initSt.amount - (((3 : ℤ) : ℚ) * priceAt dataP2 0) * (1 + 0) - 0
             units := initSt.units + 3
             position := initSt.position
             trades := initSt.trades + 1
             log := initSt.log ++ [⟨0, priceAt dataP2 0, 3, true⟩] } ∧
    place_sell_order 0 0 dataP2 0 (Size.byUnits 3) initSt =
      some { amount := initSt.amount + (((3 : ℤ) : ℚ) * priceAt dataP2 0) * (1 - 0) - 0
             units := initSt.units - 3
             position := initSt.position
             trades := initSt.trades + 1
             log := initSt.log ++ [⟨0, priceAt dataP2 0, 3, false⟩] } :=
  C2_fill_accounting 0 0 dataP2 0 3 initSt
    (of_decide_eq_true (by with_unfolding_all rfl))

/-- Claim C10: the terminal close-out applies no transaction costs for
any configured ftc and ptc: cash becomes exactly cash + units * price,
units become 0, and trades increments by one even when units = 0 (the
increment is unconditional).  The last conjunct contrasts it with a
cost-bearing sell of the same holding, whose cash formula carries the
ptc and ftc terms. -/
theorem C10_close_out_costfree (data : List Bar) (bar : ℕ) (s : St)
    (ftc ptc : ℚ) :
    close_out data bar s =
      { amount := s.amount + (s.units : ℚ) * priceAt data bar
        units := 0
        position := s.position
        trades := s.trades + 1
        log := s.log } ∧
    (place_sell_order ftc ptc data bar (Size.byUnits s.units) s).map St.amount =
      some (s.amount + ((s.units : ℚ) * priceAt data bar) * (1 - ptc) - ftc) := by
  refine ⟨rfl, ?_⟩
  rw [place_sell_byUnits]
  rfl

/-- Counterexample to claim C3 as stated: a cash budget of -11 at price 2
(reachable, since a run may hold a negative cash balance when a buy
signal fires) trades trunc(-11 / 2) = -5 units, while floor(-11 / 2) is
-6: the traded unit count is not floor(budget / price). -/
theorem C3_counterexample :
    unitsOf (place_buy_order 0 0 dataP2 0 (Size.byAmount (-11)) initSt) =
      some (-5) ∧
    ⌊(-11 : ℚ) / priceAt dataP2 0⌋ = -6 :=
  ⟨by with_unfolding_all rfl, by with_unfolding_all rfl⟩

/-- Claim C3 amended: for every budget fill at positive price the traded
unit count is the budget divided by the price truncated toward zero
(Python int), which agrees with floor exactly when the budget is
non-negative; the all-available-cash sentinel of go_long resolves to the
cash balance after the same-bar closing fill (when short) and to the
current cash balance otherwise, before the division is performed. -/
theorem C3_budget_conversion (ftc ptc a : ℚ) (data : List Bar) (bar : ℕ)
    (s : St) (hp : 0 < priceAt data bar) :
    unitsOf (place_buy_order ftc ptc data bar (Size.byAmount a) s) =
      some (s.units + truncQ (a / priceAt data bar)) ∧
    (0 ≤ a → truncQ (a / priceAt data bar) = ⌊a / priceAt data bar⌋) ∧
    (s.position = -1 →
      go_long ftc ptc data bar GoSize.allIn s =
        (place_buy_order ftc ptc data bar (Size.byUnits (-s.units)) s).bind
          fun s1 => place_buy_order ftc ptc data bar (Size.byAmount s1.amount) s1) ∧
    (s.position ≠ -1 →
      go_long ftc ptc data bar GoSize.allIn s =
        place_buy_order ftc ptc data bar (Size.byAmount s.amount) s) := by
  refine ⟨?_, ?_, ?_, ?_⟩
  · rw [place_buy_byAmount ftc ptc data bar a s (ne_of_gt hp)]
    rfl
  · intro ha
    rw [truncQ, if_pos (div_nonneg ha (le_of_lt hp))]
  · intro hpos
    rw [go_long, if_pos hpos]
  · intro hpos
    rw [go_long, if_neg hpos]
    rfl

/-- Witness for C3 amended at budget 10, price 2: the fill trades
trunc(10 / 2) = floor(10 / 2) units. -/
theorem C3_budget_conversion_witness :
    truncQ ((10 : ℚ) / priceAt dataP2 0) = ⌊(10 : ℚ) / priceAt dataP2 0⌋ :=
  ((C3_budget_conversion 0 0 10 dataP2 0 initSt
    (of_decide_eq_true (by with_unfolding_all rfl))).2.1)
    (of_decide_eq_true (by with_unfolding_all rfl))

/-- Claim C4: in the long-short policy a direct flip is exactly two
sequential fills in the same bar.  A go_long from a short position first
buys back the full negative holding (the intermediate state is flat) and
then opens the new side with all available cash, never as one combined
fill; trades grows by exactly 2 and exactly two fills are logged.  The
mirrored statement holds for go_short from a long position. -/
theorem C4_flip_two_fills (ftc ptc : ℚ) (data : List Bar) (bar : ℕ)
    (s : St) (hp : 0 < priceAt data bar) :
    (s.position = -1 →
      go_long ftc ptc data bar GoSize.allIn s =
        (place_buy_order ftc ptc data bar (Size.byUnits (-s.units)) s).bind
          (fun s1 => place_buy_order ftc ptc data bar (Size.byAmount s1.amount) s1) ∧
      unitsOf (place_buy_order ftc ptc data bar (Size.byUnits (-s.units)) s) =
        some 0 ∧
      tradesOf (go_long ftc ptc data bar GoSize.allIn s) = some (s.trades + 2) ∧
      fillsOf (go_long ftc ptc data bar GoSize.allIn s) = some (fillCount s + 2)) ∧
    (s.position = 1 →
      go_short ftc ptc data bar GoSize.allIn s =
        (place_sell_order ftc ptc data bar (Size.byUnits s.units) s).bind
          (fun s1 => place_sell_order ftc ptc data bar (Size.byAmount s1.amount) s1) ∧
      unitsOf (place_sell_order ftc ptc data bar (Size.byUnits s.units) s) =
        some 0 ∧
      tradesOf (go_short ftc ptc data bar GoSize.allIn s) = some (s.trades + 2) ∧
      fillsOf (go_short ftc ptc data bar GoSize.allIn s) = some (fillCount s + 2)) := by
  have hne : priceAt data bar ≠ 0 := ne_of_gt hp
  constructor
  · intro hpos
    have hdec : go_long ftc ptc data bar GoSize.allIn s =
        (place_buy_order ftc ptc data bar (Size.byUnits (-s.units)) s).bind
          (fun s1 => place_buy_order ftc ptc data bar (Size.byAmount s1.amount) s1) := by
      rw [go_long, if_pos hpos]
    refine ⟨hdec, ?_, ?_, ?_⟩
    · rw [place_buy_byUnits]
      show some (s.units + -s.units) = some 0
      rw [Int.add_right_neg]
    · rw [tradesOf, hdec, place_buy_byUnits, Option.some_bind,
        place_buy_byAmount ftc ptc data bar _ _ hne]
      rfl
    · rw [fillsOf, hdec, place_buy_byUnits, Option.some_bind,
        place_buy_byAmount ftc ptc data bar _ _ hne]
      simp [fillCount]
  · intro hpos
    have hdec : go_short ftc ptc data bar GoSize.allIn s =
        (place_sell_order ftc ptc data bar (Size.byUnits s.units) s).bind
          (fun s1 => place_sell_order ftc ptc data bar (Size.byAmount s1.amount) s1) := by
      rw [go_short, if_pos hpos]
    refine ⟨hdec, ?_, ?_, ?_⟩
    · rw [place_sell_byUnits]
      show some (s.units - s.units) = some 0
      rw [sub_self]
    · rw [tradesOf, hdec, place_sell_byUnits, Option.some_bind,
        place_sell_byAmount ftc ptc data bar _ _ hne]
      rfl
    · rw [fillsOf, hdec, place_sell_byUnits, Option.some_bind,
        place_sell_byAmount ftc ptc data bar _ _ hne]
      simp [fillCount]

/-- Witness for C4 at price 2: a flip out of a 4-unit short and a flip
out of a 4-unit long each execute exactly two fills. -/
theorem C4_flip_two_fills_witness :
    tradesOf (go_long 0 0 dataP2 0 GoSize.allIn shortSt) =
      some (shortSt.trades + 2) ∧
    tradesOf (go_short 0 0 dataP2 0 GoSize.allIn longSt) =
      some (longSt.trades + 2) :=
  ⟨((C4_flip_two_fills 0 0 dataP2 0 shortSt
      (of_decide_eq_true (by with_unfolding_all rfl))).1 rfl).2.2.1,
   ((C4_flip_two_fills 0 0 dataP2 0 longSt
      (of_decide_eq_true (by with_unfolding_all rfl))).2 rfl).2.2.1⟩

/-- Counterexample to claim C7 as stated: converting a cash budget of 100
at a zero price raises in the source (modelled none), it does not fail
closed to a zero-unit fill; and at price -2 the fill trades -50 units,
a negative unit count. -/
theorem C7_counterexample :
    place_buy_order 0 0 dataZeroP 0 (Size.byAmount 100) initSt = none ∧
    unitsOf (place_buy_order 0 0 dataNegP 0 (Size.byAmount 100) initSt) =
      some (-50) :=
  ⟨by with_unfolding_all rfl, by with_unfolding_all rfl⟩

/-- Claim C7 amended: a budget fill at a zero price raises an arithmetic
fault (modelled none, no fill is applied), and at a negative price the
fill proceeds and trades trunc(budget / price) units, which is at most
zero for a non-negative budget; the conversion does not fail closed. -/
theorem C7_degenerate_price (ftc ptc a : ℚ) (data : List Bar) (bar : ℕ)
    (s : St) :
    (priceAt data bar = 0 →
      place_buy_order ftc ptc data bar (Size.byAmount a) s = none ∧
      place_sell_order ftc ptc data bar (Size.byAmount a) s = none) ∧
    (priceAt data bar < 0 →
      unitsOf (place_buy_order ftc ptc data bar (Size.byAmount a) s) =
        some (s.units + truncQ (a / priceAt data bar)) ∧
      (0 ≤ a → truncQ (a / priceAt data bar) ≤ 0)) := by
  constructor
  · intro h0
    constructor
    · rw [place_buy_order, resolveUnits, if_pos h0]
      rfl
    · rw [place_sell_order, resolveUnits, if_pos h0]
      rfl
  · intro hneg
    constructor
    · rw [place_buy_byAmount ftc ptc data bar a s (ne_of_lt hneg)]
      rfl
    · intro ha
      have hq : a / priceAt data bar ≤ 0 :=
        div_nonpos_iff.2 (Or.inl ⟨ha, le_of_lt hneg⟩)
      rw [truncQ]
      by_cases hz : 0 ≤ a / priceAt data bar
      · rw [if_pos hz]
        have : a / priceAt data bar = 0 := le_antisymm hq hz
        rw [this]
        simp
      · rw [if_neg hz]
        exact Int.ceil_le.2 (by exact_mod_cast hq)

/-- Witness for C7 amended: at zero price the buy raises (none), and at
price -2 a budget of 100 trades a non-positive unit count. -/
theorem C7_degenerate_price_witness :
    (place_buy_order 0 0 dataZeroP 0 (Size.byAmount 100) initSt = none ∧
     place_sell_order 0 0 dataZeroP 0 (Size.byAmount 100) initSt = none) ∧
    truncQ ((100 : ℚ) / priceAt dataNegP 0) ≤ 0 :=
  ⟨(C7_degenerate_price 0 0 100 dataZeroP 0 initSt).1
      (by with_unfolding_all rfl),
   ((C7_degenerate_price 0 0 100 dataNegP 0 initSt).2
      (of_decide_eq_true (by with_unfolding_all rfl))).2
      (of_decide_eq_true (by with_unfolding_all rfl))⟩

/-- Counterexample to claim C1 as stated: on five strictly decreasing
prices the SMA(1)/SMA(2) run applies no strategy fill and the position
is flat (zero units) before the final bar, yet the final trade count is
1, not 0: the terminal close-out increments the trade count even when
the position is already flat. -/
theorem C1_counterexample :
    tradesOf (run_sma_strategy 0 0 10 data5 1 2 initSt) = some 1 ∧
    fillsOf (run_sma_strategy 0 0 10 data5 1 2 initSt) = some 0 ∧
    unitsOf (run_sma_loop 0 0 10 data5 1 2 initSt) = some 0 :=
  ⟨by with_unfolding_all rfl, by with_unfolding_all rfl,
   by with_unfolding_all rfl⟩

/-- Claim C1 amended: in every completed long-only run the final trade
count equals the number of strategy fills applied during the run plus
exactly one for the terminal close-out, which increments the count
unconditionally — also when the position is already flat before the
final bar. -/
theorem C1_trade_count (ftc ptc A : ℚ) (data : List Bar) (w : ℕ)
    (buySig sellSig : ℕ → Bool) (s0 s' : St)
    (h : run_long_only ftc ptc A data w buySig sellSig s0 = some s') :
    s'.trades = fillCount s' + 1 := by
  rw [run_long_only] at h
  by_cases hw : w < data.length
  · rw [if_pos hw] at h
    cases hl : run_long_only_loop ftc ptc A data w buySig sellSig s0 with
    | none => rw [hl] at h; cases h
    | some sl =>
      rw [hl] at h
      cases h
      have hsl : sl.trades = sl.log.length := by
        rw [run_long_only_loop] at hl
        exact runBars_invariant _ (fun s => s.trades = s.log.length)
          (fun b s t hs hp => longOnlyStep_counts ftc ptc data buySig sellSig b s t hs hp)
          _ _ _ hl rfl
      show sl.trades + 1 = sl.log.length + 1
      rw [hsl]
  · rw [if_neg hw] at h
    cases h

/-- Witness for C1 amended on the decreasing series: the completed run
ends with 1 trade and 0 strategy fills. -/
theorem C1_trade_count_witness :
    (St.mk 10 0 0 1 []).trades = fillCount (St.mk 10 0 0 1 []) + 1 :=
  C1_trade_count 0 0 10 data5 2 (smaBuySig data5 1 2) (smaSellSig data5 1 2)
    initSt (St.mk 10 0 0 1 []) (by with_unfolding_all rfl)

/-- Counterexample to claim C5 as stated: with fixed cost 8 on the
zigzag series, the long-only SMA(1)/SMA(2) loop reaches a state with a
negative unit holding (-5 units), because a buy signal fires while the
cash balance is negative and the truncated conversion yields negative
units.  The unit holding does not stay non-negative. -/
theorem C5_counterexample :
    unitsOf (run_sma_loop 8 0 10 dataZig 1 2 initSt) = some (-5) := by
  with_unfolding_all rfl

/-- Claim C5 amended: in the long-only policy the position state never
takes the value short: after every prefix of the evaluation loop of any
long-only strategy (all three strategies instantiate longOnlyStep) the
position is flat (0) or long (1).  The non-negativity of the unit
holding claimed alongside fails (see the counterexample) and is
dropped. -/
theorem C5_long_only_no_short (ftc ptc A : ℚ) (data : List Bar)
    (buySig sellSig : ℕ → Bool) (bars : List ℕ) (s0 : St) (n : ℕ) (s' : St)
    (h : runBars (longOnlyStep ftc ptc data buySig sellSig) (List.take n bars)
      (reset A s0) = some s') :
    s'.position = 0 ∨ s'.position = 1 :=
  runBars_invariant _ (fun s => s.position = 0 ∨ s.position = 1)
    (fun b s t hs hp => longOnlyStep_pos ftc ptc data buySig sellSig b s t hs hp)
    _ _ _ h (Or.inl rfl)

/-- Witness for C5 amended: after the full zigzag loop (the same run as
the counterexample, three bars visited) the position is flat or long. -/
theorem C5_long_only_no_short_witness :
    (St.mk (-9) (-5) 1 3
      [⟨2, 2, 5, true⟩, ⟨3, 1, 5, false⟩, ⟨4, 2, -5, true⟩]).position = 0 ∨
    (St.mk (-9) (-5) 1 3
      [⟨2, 2, 5, true⟩, ⟨3, 1, 5, false⟩, ⟨4, 2, -5, true⟩]).position = 1 :=
  C5_long_only_no_short 8 0 10 dataZig (smaBuySig dataZig 1 2)
    (smaSellSig dataZig 1 2) (visitedBars 2 dataZig.length) initSt 3 _
    (by with_unfolding_all rfl)

/-- Claim C6: a run from a fresh engine state (zero units, as the
constructor sets) followed by a second run of the same strategy with the
same parameters on the same series yields the identical final state:
the same fill sequence (the log) and the same summary statistics (final
balance and trade count).  Each run resets cash, position and trade
count, and the only carried-over field, the unit holding, is zeroed by
the close-out of the completed first run. -/
theorem C6_rerun_identical (ftc ptc A : ℚ) (data : List Bar) (w : ℕ)
    (buySig sellSig : ℕ → Bool) (s0 s1 : St) (h0 : s0.units = 0)
    (h1 : run_long_only ftc ptc A data w buySig sellSig s0 = some s1) :
    run_long_only ftc ptc A data w buySig sellSig s1 = some s1 := by
  have hu : s1.units = 0 :=
    run_long_only_units_zero ftc ptc A data w buySig sellSig s0 s1 h1
  rw [run_long_only_congr ftc ptc A data w buySig sellSig s1 s0
    (by rw [hu, h0])]
  exact h1

/-- Witness for C6: rerunning the SMA strategy from the final state of a
completed run reproduces that state exactly. -/
theorem C6_rerun_identical_witness :
    run_long_only 0 0 10 data5 2 (smaBuySig data5 1 2) (smaSellSig data5 1 2)
      (St.mk 10 0 0 1 []) = some (St.mk 10 0 0 1 []) :=
  C6_rerun_identical 0 0 10 data5 2 (smaBuySig data5 1 2)
    (smaSellSig data5 1 2) initSt (St.mk 10 0 0 1 [])
    (by with_unfolding_all rfl) (by with_unfolding_all rfl)

/-- Counterexample to claim C8 as stated: with a window of 5 on a series
of length 3 the run does not complete normally with zero trades — the
loop body never executes, the loop variable is never bound, and the
terminal close_out call raises (modelled none). -/
theorem C8_counterexample :
    run_sma_strategy 0 0 10 data3 1 5 initSt = none := by
  with_unfolding_all rfl

/-- Claim C8 amended: when the driving window length is at least the
series length, the bar loop never executes (the state after the loop is
exactly the reset state: no fills, zero trades) and the run aborts at
the terminal close-out with an unbound loop variable instead of
completing. -/
theorem C8_window_too_long (ftc ptc A : ℚ) (data : List Bar) (w : ℕ)
    (buySig sellSig : ℕ → Bool) (s0 : St) (h : data.length ≤ w) :
    run_long_only ftc ptc A data w buySig sellSig s0 = none ∧
    run_long_only_loop ftc ptc A data w buySig sellSig s0 =
      some (reset A s0) := by
  constructor
  · rw [run_long_only, if_neg (by omega)]
  · rw [run_long_only_loop, visitedBars, Nat.sub_eq_zero_of_le h]
    rfl

/-- Witness for C8 amended at window 5 on the length-3 series. -/
theorem C8_window_too_long_witness :
    run_long_only 0 0 10 data3 5 (smaBuySig data3 1 5) (smaSellSig data3 1 5)
      initSt = none ∧
    run_long_only_loop 0 0 10 data3 5 (smaBuySig data3 1 5)
      (smaSellSig data3 1 5) initSt = some (reset 10 initSt) :=
  C8_window_too_long 0 0 10 data3 5 (smaBuySig data3 1 5)
    (smaSellSig data3 1 5) initSt (by decide)

/-- Counterexample to claim C9 as stated: with windows 1 and 2 on a
series of length 5, both rolling indicators are already defined at bar
index 1, yet the loop visits bars [2, 3, 4] — not the bars from the
first index at which all indicators are defined (that would be
[1, 2, 3, 4]). -/
theorem C9_counterexample :
    (rollMean pr5 1 1).isSome = true ∧
    (rollMean pr5 2 1).isSome = true ∧
    (1 : ℕ) ∉ visitedBars 2 pr5.length ∧
    visitedBars 2 pr5.length ≠ List.range' 1 (pr5.length - 1) :=
  ⟨by with_unfolding_all rfl, by with_unfolding_all rfl,
   by with_unfolding_all decide, by with_unfolding_all decide⟩

/-- Claim C9 amended: for windows w1 ≤ w2 (w2 the driving window) on a
series longer than w2, the loop visits exactly the bars from index w2
through the last bar; all rolling indicators are already defined one bar
earlier, at index w2 - 1, which the loop skips (so in particular no
trade intent is produced before bar w2). -/
theorem C9_warmup_off_by_one (xs : List ℚ) (w1 w2 : ℕ) (h1 : 1 ≤ w1)
    (h12 : w1 ≤ w2) (h2 : w2 < xs.length) :
    (∀ b, b ∈ visitedBars w2 xs.length ↔ w2 ≤ b ∧ b < xs.length) ∧
    (rollMean xs w1 (w2 - 1)).isSome = true ∧
    (rollMean xs w2 (w2 - 1)).isSome = true ∧
    w2 - 1 ∉ visitedBars w2 xs.length := by
  have hmem : ∀ b, b ∈ visitedBars w2 xs.length ↔ w2 ≤ b ∧ b < xs.length := by
    intro b
    rw [visitedBars, List.mem_range'_1]
    omega
  refine ⟨hmem, ?_, ?_, ?_⟩
  · rw [rollMean, if_pos ⟨h1, by omega, by omega⟩]
    rfl
  · rw [rollMean, if_pos ⟨by omega, by omega, by omega⟩]
    rfl
  · rw [hmem]
    omega

/-- Witness for C9 amended at windows 1 and 2 on the length-5 series:
the short indicator is defined at the skipped bar 1. -/
theorem C9_warmup_off_by_one_witness :
    (rollMean pr5 1 (2 - 1)).isSome = true :=
  (C9_warmup_off_by_one pr5 1 2 (by decide) (by decide)
    (by with_unfolding_all decide)).2.1

end Backtest
